import Mathlib

/-!
# Verification of `lavis/runners/runner_iter.py` (`RunnerIter`)

A shallow embedding of the iteration-based training controller.  The runner
drives inner epochs of `iters_per_inner_epoch` training steps each, validates
on the configured splits, tracks the best aggregate metric seen on the
split named "val", and writes checkpoints.

The embedding models `RunnerIter.train` as a fold over the list of inner-epoch
start offsets (Python `range(0, max_iters, iters_per_inner_epoch)`), threading
a state that records the best metric bookkeeping, whether the run has aborted
on a failed assertion, and a trace of observable events (training calls,
evaluation calls, metric reads, checkpoint writes, barrier waits, log calls).
Checkpoint-write events are emitted only on the main process, mirroring the
`@main_process` decorator on `save_checkpoint` and the `is_main_process()`
guard around the validation bookkeeping.
-/

set_option autoImplicit false

namespace RunnerIter

/-- A validation log returned by `eval_epoch`: models the result dictionary,
keeping only the key the runner reads.  `agg_metrics = none` models a
dictionary lacking the `"agg_metrics"` key. -/
structure ValLog where
  agg_metrics : Option Int
deriving DecidableEq, Repr

/-- Observable events of a run of `RunnerIter.train`. -/
inductive Event where
  /-- A loop body (inner-epoch cycle) starts, at iteration offset `startIters`. -/
  | beginInnerEpoch (startIters : Nat)
  /-- The call `self.train_iters(self.cur_epoch, start_iters)`. -/
  | trainIters (startIters : Nat)
  /-- The call `self.eval_epoch(split_name, ...)` at the end of an inner epoch. -/
  | evalEpoch (splitName : String) (endIters : Nat)
  /-- The main process reads `val_log["agg_metrics"]` and obtains `m`. -/
  | aggRead (splitName : String) (m : Int)
  /-- A checkpoint write: `self.save_checkpoint(curIters, is_best=isBest)`
  actually executed (i.e. on the main process). -/
  | saveCkpt (curIters : Nat) (isBest : Bool)
  /-- The call `self.log_stats(...)` for the given split. -/
  | logStats (splitName : String)
  /-- The call `dist.barrier()` at the end of a loop body. -/
  | barrier
  /-- The `assert "agg_metrics" in val_log` failed. -/
  | fatal (msg : String)
  /-- The final testing phase `self.evaluate(cur_epoch=self.cur_epoch)`. -/
  | finalEvaluate
deriving DecidableEq, Repr

/-- The fixed data of a run: configuration and the environment's responses.
`evalResult endIters splitName` is what `eval_epoch` returns at that point
(`none` models Python `None`). -/
structure Env where
  maxIters : Nat
  itersPerInnerEpoch : Nat
  evaluateOnly : Bool
  validSplits : List String
  isMainProcess : Bool
  evalResult : Nat → String → Option ValLog

/-- The mutable state of `RunnerIter.train`: the best-metric bookkeeping
(`best_agg_metric`, `best_iters`, both initialised to 0), whether an
assertion has aborted the run, and the event trace so far. -/
structure TrainState where
  bestAggMetric : Int
  bestIters : Nat
  aborted : Bool
  trace : List Event
deriving Repr

/-- One iteration of `for split_name in self.valid_splits`: call `eval_epoch`;
if the result is not `None` and this is the main process, assert the
aggregate-metric key is present, update the best bookkeeping and save a best
checkpoint when the metric strictly exceeds the best so far on split "val",
then log the statistics.  Branches are flattened: each case lists the events
it appends in program order. -/
def processSplit (env : Env) (endIters : Nat) (s : TrainState) (splitName : String) :
    TrainState :=
  if s.aborted then s
  else
    match env.evalResult endIters splitName with
    | none => { s with trace := s.trace ++ [Event.evalEpoch splitName endIters] }
    | some valLog =>
      if env.isMainProcess then
        match valLog.agg_metrics with
        | none =>
          { s with
            aborted := true
            trace := s.trace ++ [Event.evalEpoch splitName endIters,
                                 Event.fatal "No agg_metrics found in validation log."] }
        | some m =>
          if s.bestAggMetric < m ∧ splitName = "val" then
            { s with
              bestAggMetric := m
              bestIters := endIters
              trace := s.trace ++ [Event.evalEpoch splitName endIters,
                                   Event.aggRead splitName m,
                                   Event.saveCkpt endIters true,
                                   Event.logStats splitName] }
          else
            { s with trace := s.trace ++ [Event.evalEpoch splitName endIters,
                                          Event.aggRead splitName m,
                                          Event.logStats splitName] }
      else { s with trace := s.trace ++ [Event.evalEpoch splitName endIters] }

/-- The training phase of a loop body: the body starts, and unless
evaluate-only, `train_iters` runs and its statistics are logged. -/
def innerEpochStart (env : Env) (s : TrainState) (startIters : Nat) : TrainState :=
  { s with
    trace := s.trace ++
      (if env.evaluateOnly then [Event.beginInnerEpoch startIters]
       else [Event.beginInnerEpoch startIters, Event.trainIters startIters,
             Event.logStats "train"]) }

/-- The evaluation phase of a loop body: every configured validation split is
processed; with no validation splits, a non-best checkpoint is saved at the
inner epoch's end iteration count (unless evaluate-only; the write happens
only on the main process). -/
def innerEpochEval (env : Env) (endIters : Nat) (s : TrainState) : TrainState :=
  if 0 < env.validSplits.length then
    env.validSplits.foldl (processSplit env endIters) s
  else if env.evaluateOnly then s
  else if env.isMainProcess then
    { s with trace := s.trace ++ [Event.saveCkpt endIters false] }
  else s

/-- The end of a loop body: `dist.barrier()` is awaited unless the run is
evaluate-only (which `break`s first) or the body raised. -/
def innerEpochEnd (env : Env) (s : TrainState) : TrainState :=
  if s.aborted then s
  else if env.evaluateOnly then s
  else { s with trace := s.trace ++ [Event.barrier] }

/-- One body of `for start_iters in range(0, max_iters, iters_per_inner_epoch)`:
train (unless evaluate-only), evaluate each validation split or save a
non-best checkpoint, then wait on the barrier. -/
def innerEpoch (env : Env) (s : TrainState) (startIters : Nat) : TrainState :=
  if s.aborted then s
  else
    innerEpochEnd env
      (innerEpochEval env (startIters + env.itersPerInnerEpoch)
        (innerEpochStart env s startIters))

/-- The list of inner-epoch start offsets: Python
`range(0, max_iters, iters_per_inner_epoch)`, which for a positive step has
`⌈max_iters / iters_per_inner_epoch⌉` elements `0, step, 2*step, ...`. -/
def startItersList (env : Env) : List Nat :=
  (List.range ((env.maxIters + env.itersPerInnerEpoch - 1) / env.itersPerInnerEpoch)).map
    (fun i => i * env.itersPerInnerEpoch)

/-- `RunnerIter.train`: run the inner-epoch loop (only the first body when
`evaluate_only`, mirroring the `break`), then the final testing phase — unless
an assertion aborted the run, in which case the exception propagates. -/
def train (env : Env) : TrainState :=
  let bodies := if env.evaluateOnly then (startItersList env).take 1 else startItersList env
  let s := bodies.foldl (innerEpoch env) ⟨0, 0, false, []⟩
  if s.aborted then s
  else { s with trace := s.trace ++ [Event.finalEvaluate] }

/-! ### Event classifiers and trace projections -/

/-- Is this event the start of a loop body (an executed inner-epoch cycle)? -/
def isBeginEvent : Event → Bool
  | Event.beginInnerEpoch _ => true
  | Event.trainIters _ => false
  | Event.evalEpoch _ _ => false
  | Event.aggRead _ _ => false
  | Event.saveCkpt _ _ => false
  | Event.logStats _ => false
  | Event.barrier => false
  | Event.fatal _ => false
  | Event.finalEvaluate => false

/-- Is this event a `dist.barrier()` wait? -/
def isBarrierEvent : Event → Bool
  | Event.beginInnerEpoch _ => false
  | Event.trainIters _ => false
  | Event.evalEpoch _ _ => false
  | Event.aggRead _ _ => false
  | Event.saveCkpt _ _ => false
  | Event.logStats _ => false
  | Event.barrier => true
  | Event.fatal _ => false
  | Event.finalEvaluate => false

/-- Is this event a checkpoint write? -/
def isSaveEvent : Event → Bool
  | Event.beginInnerEpoch _ => false
  | Event.trainIters _ => false
  | Event.evalEpoch _ _ => false
  | Event.aggRead _ _ => false
  | Event.saveCkpt _ _ => true
  | Event.logStats _ => false
  | Event.barrier => false
  | Event.fatal _ => false
  | Event.finalEvaluate => false

/-- Is this event a best-checkpoint write (`is_best=True`)? -/
def isBestSave : Event → Bool
  | Event.beginInnerEpoch _ => false
  | Event.trainIters _ => false
  | Event.evalEpoch _ _ => false
  | Event.aggRead _ _ => false
  | Event.saveCkpt _ b => b
  | Event.logStats _ => false
  | Event.barrier => false
  | Event.fatal _ => false
  | Event.finalEvaluate => false

/-- Is this event a non-best checkpoint write (`is_best=False`)? -/
def isNonBestSave : Event → Bool
  | Event.beginInnerEpoch _ => false
  | Event.trainIters _ => false
  | Event.evalEpoch _ _ => false
  | Event.aggRead _ _ => false
  | Event.saveCkpt _ b => !b
  | Event.logStats _ => false
  | Event.barrier => false
  | Event.fatal _ => false
  | Event.finalEvaluate => false

/-- The aggregate metric carried by an event, when the event is a read of
`val_log["agg_metrics"]` on the split named "val". -/
def valMetricOf : Event → Option Int
  | Event.beginInnerEpoch _ => none
  | Event.trainIters _ => none
  | Event.evalEpoch _ _ => none
  | Event.aggRead splitName m => if splitName = "val" then some m else none
  | Event.saveCkpt _ _ => none
  | Event.logStats _ => none
  | Event.barrier => none
  | Event.fatal _ => none
  | Event.finalEvaluate => none

/-- The sequence of aggregate metrics observed on the split "val", in order. -/
def valMetrics (t : List Event) : List Int :=
  t.filterMap valMetricOf

/-- `countTriggers best ms` counts the positions of `ms` whose metric strictly
exceeds the running maximum of `best` and all earlier entries — exactly the
observations for which the runner writes a best checkpoint when starting from
`best_agg_metric = best`. -/
def countTriggers (best : Int) : List Int → Nat
  | [] => 0
  | m :: ms => (if best < m then 1 else 0) + countTriggers (max best m) ms

/-! ### Constructor (`RunnerIter.__init__`) -/

/-- The relevant part of the run configuration: `run_cfg.get("max_iters", -1)`
and `run_cfg.get("iters_per_inner_epoch", -1)`, `none` when the key is absent. -/
structure RunCfg where
  max_iters : Option Int
  iters_per_inner_epoch : Option Int

/-- `RunnerIter.__init__`: read `max_iters` (default -1) and assert it is
positive, then read `iters_per_inner_epoch` (default -1) and assert it is
positive.  Returns the validated pair, or the assertion message. -/
def runnerIterInit (cfg : RunCfg) : Except String (Int × Int) :=
  let maxIters := cfg.max_iters.getD (-1)
  if 0 < maxIters then
    let ipe := cfg.iters_per_inner_epoch.getD (-1)
    if 0 < ipe then Except.ok (maxIters, ipe)
    else Except.error "iters_per_inner_epoch must be greater than 0."
  else Except.error "max_iters must be greater than 0."

/-! ### `RunnerIter.save_checkpoint` -/

/-- The object serialized by `save_checkpoint`: model weights, optimizer
state, full run configuration, and the iteration count.  The payload types
are abstract — the runner serializes them opaquely. -/
structure SaveObj (M O C : Type) where
  model : M
  optimizer : O
  config : C
  iters : Nat
deriving DecidableEq, Repr

/-- The decimal representation of a natural number, modelling Python
`str(cur_iters)` inside `"checkpoint_{}.pth".format(...)`. -/
def natDecimalRepr (n : Nat) : String :=
  if n = 0 then "0"
  else String.mk (((Nat.digits 10 n).reverse).map Nat.digitChar)

/-- The checkpoint label: the literal "best" when `is_best`, else the decimal
iteration count. -/
def checkpointLabel (curIters : Nat) (isBest : Bool) : String :=
  if isBest then "best" else natDecimalRepr curIters

/-- The checkpoint file name `checkpoint_<label>.pth`. -/
def checkpointFileName (curIters : Nat) (isBest : Bool) : String :=
  "checkpoint_" ++ checkpointLabel curIters isBest ++ ".pth"

/-- The checkpoint path `os.path.join(output_dir, "checkpoint_<label>.pth")`. -/
def checkpointPath (outputDir : String) (curIters : Nat) (isBest : Bool) : String :=
  outputDir ++ "/" ++ checkpointFileName curIters isBest

/-- The write performed by the body of `save_checkpoint` (the body runs only on
the main process, by the `@main_process` decorator): the target path and the
serialized object. -/
def save_checkpoint {M O C : Type} (outputDir : String) (model : M) (optimizer : O)
    (config : C) (curIters : Nat) (isBest : Bool) : String × SaveObj M O C :=
  (checkpointPath outputDir curIters isBest, SaveObj.mk model optimizer config curIters)

end RunnerIter

namespace RunnerIter

/-- `processSplit` on an aborted state is the identity. -/
theorem processSplit_of_aborted (env : Env) (e : Nat) (s : TrainState) (sp : String)
    (h : s.aborted = true) : processSplit env e s sp = s := by
  simp [processSplit, h]

/-- `innerEpoch` on an aborted state is the identity: once the run has raised,
no later loop body executes. -/
theorem innerEpoch_of_aborted (env : Env) (s : TrainState) (i : Nat)
    (h : s.aborted = true) : innerEpoch env s i = s := by
  simp [innerEpoch, h]

/-- Folding the loop over an aborted state is the identity. -/
theorem foldl_innerEpoch_of_aborted (env : Env) :
    ∀ (l : List Nat) (s : TrainState), s.aborted = true →
      l.foldl (innerEpoch env) s = s
  | [], _, _ => rfl
  | i :: l, s, h => by
    rw [List.foldl_cons, innerEpoch_of_aborted env s i h]
    exact foldl_innerEpoch_of_aborted env l s h

/-- The events appended by `processSplit` contain no loop-body start, no
barrier wait and no non-best checkpoint write. -/
theorem processSplit_trace_shape (env : Env) (e : Nat) (s : TrainState) (sp : String) :
    ∃ t, (processSplit env e s sp).trace = s.trace ++ t ∧
      t.countP isBeginEvent = 0 ∧ t.countP isBarrierEvent = 0 ∧
      t.countP isNonBestSave = 0 := by
  unfold processSplit
  split
  · exact ⟨[], by simp⟩
  · split
    · exact ⟨_, rfl, by simp [List.countP_cons, isBeginEvent, isBarrierEvent, isNonBestSave]⟩
    · split
      · split
        · exact ⟨_, rfl, by simp [List.countP_cons, isBeginEvent, isBarrierEvent, isNonBestSave]⟩
        · split
          · exact ⟨_, rfl, by simp [List.countP_cons, isBeginEvent, isBarrierEvent, isNonBestSave]⟩
          · exact ⟨_, rfl, by simp [List.countP_cons, isBeginEvent, isBarrierEvent, isNonBestSave]⟩
      · exact ⟨_, rfl, by simp [List.countP_cons, isBeginEvent, isBarrierEvent, isNonBestSave]⟩

/-- The events appended by the whole validation-split loop contain no loop-body
start, no barrier wait and no non-best checkpoint write. -/
theorem foldl_processSplit_trace_shape (env : Env) (e : Nat) :
    ∀ (splits : List String) (s : TrainState),
      ∃ t, (splits.foldl (processSplit env e) s).trace = s.trace ++ t ∧
        t.countP isBeginEvent = 0 ∧ t.countP isBarrierEvent = 0 ∧
        t.countP isNonBestSave = 0
  | [], s => ⟨[], by simp⟩
  | sp :: splits, s => by
    obtain ⟨t1, h1, hb1, hr1, hn1⟩ := processSplit_trace_shape env e s sp
    obtain ⟨t2, h2, hb2, hr2, hn2⟩ :=
      foldl_processSplit_trace_shape env e splits (processSplit env e s sp)
    exact ⟨t1 ++ t2, by
      simp [List.foldl_cons, h2, h1, List.append_assoc, List.countP_append,
        hb1, hr1, hn1, hb2, hr2, hn2]⟩

/-- The training phase changes only the trace, appending exactly one loop-body
start and no barrier, checkpoint, metric-read or fatal event. -/
theorem innerEpochStart_spec (env : Env) (s : TrainState) (i : Nat) :
    (innerEpochStart env s i).bestAggMetric = s.bestAggMetric ∧
    (innerEpochStart env s i).aborted = s.aborted ∧
    ∃ t, (innerEpochStart env s i).trace = s.trace ++ t ∧
      t.countP isBeginEvent = 1 ∧ t.countP isBarrierEvent = 0 ∧
      t.countP isNonBestSave = 0 ∧ t.countP isBestSave = 0 ∧ valMetrics t = [] := by
  refine ⟨rfl, rfl, ?_⟩
  unfold innerEpochStart
  split
  · exact ⟨_, rfl, by
      simp [List.countP_cons, isBeginEvent, isBarrierEvent, isNonBestSave, isBestSave,
        valMetrics, valMetricOf]⟩
  · exact ⟨_, rfl, by
      simp [List.countP_cons, isBeginEvent, isBarrierEvent, isNonBestSave, isBestSave,
        valMetrics, valMetricOf]⟩

/-- The evaluation phase appends no loop-body start and no barrier wait. -/
theorem innerEpochEval_shape (env : Env) (e : Nat) (s : TrainState) :
    ∃ t, (innerEpochEval env e s).trace = s.trace ++ t ∧
      t.countP isBeginEvent = 0 ∧ t.countP isBarrierEvent = 0 := by
  unfold innerEpochEval
  split
  · obtain ⟨t, ht, hb, hr, _⟩ := foldl_processSplit_trace_shape env e env.validSplits s
    exact ⟨t, ht, hb, hr⟩
  · split
    · exact ⟨[], by simp⟩
    · split
      · exact ⟨_, rfl, by simp [List.countP_cons, isBeginEvent, isBarrierEvent]⟩
      · exact ⟨[], by simp⟩

/-- The barrier phase does not change the aborted flag. -/
theorem innerEpochEnd_aborted (env : Env) (s : TrainState) :
    (innerEpochEnd env s).aborted = s.aborted := by
  unfold innerEpochEnd
  split
  · rfl
  · split
    · rfl
    · rfl

end RunnerIter

namespace RunnerIter

/-- Counting events in one executed, non-evaluate-only loop body: exactly one
loop-body start is appended, and exactly one barrier wait when the body did
not abort. -/
theorem innerEpoch_counts (env : Env) (s : TrainState) (i : Nat)
    (hs : s.aborted = false) (he : env.evaluateOnly = false) :
    (innerEpoch env s i).trace.countP isBeginEvent = s.trace.countP isBeginEvent + 1 ∧
    ((innerEpoch env s i).aborted = false →
      (innerEpoch env s i).trace.countP isBarrierEvent =
        s.trace.countP isBarrierEvent + 1) := by
  unfold innerEpoch
  rw [if_neg (by simp [hs])]
  obtain ⟨_, _, t1, ht1, hb1, hr1, _, _, _⟩ := innerEpochStart_spec env s i
  obtain ⟨t2, ht2, hb2, hr2⟩ :=
    innerEpochEval_shape env (i + env.itersPerInnerEpoch) (innerEpochStart env s i)
  unfold innerEpochEnd
  split
  · next h2 =>
    constructor
    · rw [ht2, ht1]
      simp [List.countP_append, hb1, hb2]
    · intro hab
      simp [h2] at hab
  · rw [if_neg (by simp [he])]
    constructor
    · simp [ht2, ht1, List.countP_append, hb1, hb2, List.countP_cons, isBeginEvent,
        isBarrierEvent]
    · intro _
      simp [ht2, ht1, List.countP_append, hr1, hr2, List.countP_cons, isBarrierEvent]

end RunnerIter

namespace RunnerIter

/-- In a non-evaluate-only run that never aborts, folding the loop over `l`
executes exactly `l.length` loop bodies and waits on exactly `l.length`
barriers. -/
theorem foldl_innerEpoch_counts (env : Env) (he : env.evaluateOnly = false) :
    ∀ (l : List Nat) (s : TrainState),
      (l.foldl (innerEpoch env) s).aborted = false →
      (l.foldl (innerEpoch env) s).trace.countP isBeginEvent =
          s.trace.countP isBeginEvent + l.length ∧
        (l.foldl (innerEpoch env) s).trace.countP isBarrierEvent =
          s.trace.countP isBarrierEvent + l.length
  | [], s, _ => by simp
  | i :: l, s, hab => by
    rw [List.foldl_cons] at hab ⊢
    have hs : s.aborted = false := by
      by_contra h
      have h' : s.aborted = true := by simpa using h
      rw [innerEpoch_of_aborted env s i h', foldl_innerEpoch_of_aborted env l s h', h'] at hab
      cases hab
    have h1 : (innerEpoch env s i).aborted = false := by
      by_contra h
      have h' : (innerEpoch env s i).aborted = true := by simpa using h
      rw [foldl_innerEpoch_of_aborted env l _ h', h'] at hab
      cases hab
    obtain ⟨hbegin, hbar⟩ := innerEpoch_counts env s i hs he
    obtain ⟨ihb, ihr⟩ := foldl_innerEpoch_counts env he l (innerEpoch env s i) hab
    refine ⟨?_, ?_⟩
    · rw [ihb, hbegin]
      simp only [List.length_cons]
      omega
    · rw [ihr, hbar h1]
      simp only [List.length_cons]
      omega

/-- The loop bodies `train` actually folds over: all of them, or only the
first in evaluate-only mode. -/
def trainBodies (env : Env) : List Nat :=
  if env.evaluateOnly then (startItersList env).take 1 else startItersList env

/-- The state at the end of the loop of `train`, before the testing phase. -/
def trainLoopState (env : Env) : TrainState :=
  (trainBodies env).foldl (innerEpoch env) ⟨0, 0, false, []⟩

theorem train_eq (env : Env) :
    train env =
      (if (trainLoopState env).aborted then trainLoopState env
       else { trainLoopState env with
              trace := (trainLoopState env).trace ++ [Event.finalEvaluate] }) := rfl

theorem train_aborted (env : Env) : (train env).aborted = (trainLoopState env).aborted := by
  rw [train_eq]
  split
  · rfl
  · rfl

/-- Counting events of `train` reduces to counting them over the loop, for any
event class that excludes the final testing phase. -/
theorem train_countP (env : Env) (p : Event → Bool) (hp : p Event.finalEvaluate = false) :
    (train env).trace.countP p = (trainLoopState env).trace.countP p := by
  rw [train_eq]
  split
  · rfl
  · simp [List.countP_append, List.countP_cons, hp]

theorem startItersList_length (env : Env) :
    (startItersList env).length =
      (env.maxIters + env.itersPerInnerEpoch - 1) / env.itersPerInnerEpoch := by
  simp [startItersList]

end RunnerIter

namespace RunnerIter

@[simp] theorem valMetrics_append (a b : List Event) :
    valMetrics (a ++ b) = valMetrics a ++ valMetrics b := by
  simp [valMetrics]

theorem countTriggers_append_single :
    ∀ (ms : List Int) (b m : Int),
      countTriggers b (ms ++ [m]) =
        countTriggers b ms + (if List.foldl max b ms < m then 1 else 0)
  | [], b, m => by simp [countTriggers]
  | m0 :: ms, b, m => by
    have ih := countTriggers_append_single ms (max b m0) m
    simp only [List.cons_append, countTriggers, List.foldl_cons, List.append_eq, ih]
    omega

/-- The metric bookkeeping invariant: `best_agg_metric` equals the maximum of
its initial value 0 and all aggregate metrics observed so far on split "val",
and the number of best-checkpoint writes equals the number of observations
that strictly exceeded that running maximum. -/
def MetricInv (best : Int) (trace : List Event) : Prop :=
  best = List.foldl max 0 (valMetrics trace) ∧
  trace.countP isBestSave = countTriggers 0 (valMetrics trace)

theorem metricInv_append_neutral (best : Int) (trace t : List Event)
    (hv : valMetrics t = []) (hb : t.countP isBestSave = 0)
    (h : MetricInv best trace) : MetricInv best (trace ++ t) := by
  obtain ⟨h1, h2⟩ := h
  constructor
  · simp [hv, h1]
  · simp [hv, List.countP_append, hb, h2]

theorem processSplit_metricInv (env : Env) (e : Nat) (s : TrainState) (sp : String)
    (h : MetricInv s.bestAggMetric s.trace) :
    MetricInv (processSplit env e s sp).bestAggMetric (processSplit env e s sp).trace := by
  unfold processSplit
  split
  · exact h
  · split
    · exact metricInv_append_neutral _ _ _ (by simp [valMetrics, valMetricOf]) (by simp [isBestSave]) h
    · split
      · split
        · exact metricInv_append_neutral _ _ _ (by simp [valMetrics, valMetricOf]) (by simp [isBestSave]) h
        · next m hm =>
          split
          · next hc =>
            obtain ⟨hlt, hsp⟩ := hc
            obtain ⟨h1, h2⟩ := h
            have hv : valMetrics [Event.evalEpoch sp e, Event.aggRead sp m, Event.saveCkpt e true,
                Event.logStats sp] = [m] := by
              simp [valMetrics, valMetricOf, hsp]
            constructor
            · show m = _
              rw [valMetrics_append, hv, List.foldl_append]
              simp only [List.foldl_cons, List.foldl_nil]
              rw [← h1]
              exact (max_eq_right hlt.le).symm
            · show List.countP isBestSave (s.trace ++ _) = _
              rw [valMetrics_append, hv, countTriggers_append_single, ← h1]
              simp [List.countP_append, List.countP_cons, isBestSave, hlt, h2]
          · next hc =>
            by_cases hsp : sp = "val"
            · have hle : m ≤ s.bestAggMetric := by
                rcases lt_or_le s.bestAggMetric m with hlt | hge
                · exact absurd ⟨hlt, hsp⟩ hc
                · exact hge
              obtain ⟨h1, h2⟩ := h
              have hv : valMetrics [Event.evalEpoch sp e, Event.aggRead sp m,
                  Event.logStats sp] = [m] := by
                simp [valMetrics, valMetricOf, hsp]
              constructor
              · show s.bestAggMetric = _
                rw [valMetrics_append, hv, List.foldl_append]
                simp only [List.foldl_cons, List.foldl_nil]
                rw [← h1]
                exact (max_eq_left hle).symm
              · show List.countP isBestSave (s.trace ++ _) = _
                rw [valMetrics_append, hv, countTriggers_append_single, ← h1]
                simp [List.countP_append, List.countP_cons, isBestSave, not_lt.mpr hle, h2]
            · exact metricInv_append_neutral _ _ _
                (by simp [valMetrics, valMetricOf, hsp]) (by simp [isBestSave]) h
      · exact metricInv_append_neutral _ _ _
          (by simp [valMetrics, valMetricOf]) (by simp [isBestSave]) h

theorem foldl_processSplit_metricInv (env : Env) (e : Nat) :
    ∀ (splits : List String) (s : TrainState),
      MetricInv s.bestAggMetric s.trace →
      MetricInv ((splits.foldl (processSplit env e) s).bestAggMetric)
        ((splits.foldl (processSplit env e) s).trace)
  | [], _, h => h
  | sp :: splits, s, h => by
    rw [List.foldl_cons]
    exact foldl_processSplit_metricInv env e splits _ (processSplit_metricInv env e s sp h)

theorem innerEpochStart_metricInv (env : Env) (s : TrainState) (i : Nat)
    (h : MetricInv s.bestAggMetric s.trace) :
    MetricInv (innerEpochStart env s i).bestAggMetric (innerEpochStart env s i).trace := by
  obtain ⟨hbest, _, t, ht, _, _, _, hbs, hv⟩ := innerEpochStart_spec env s i
  rw [hbest, ht]
  exact metricInv_append_neutral _ _ _ hv hbs h

theorem innerEpochEval_metricInv (env : Env) (e : Nat) (s : TrainState)
    (h : MetricInv s.bestAggMetric s.trace) :
    MetricInv (innerEpochEval env e s).bestAggMetric (innerEpochEval env e s).trace := by
  unfold innerEpochEval
  split
  · exact foldl_processSplit_metricInv env e env.validSplits s h
  · split
    · exact h
    · split
      · exact metricInv_append_neutral _ _ _ (by simp [valMetrics, valMetricOf])
          (by simp [isBestSave]) h
      · exact h

theorem innerEpochEnd_metricInv (env : Env) (s : TrainState)
    (h : MetricInv s.bestAggMetric s.trace) :
    MetricInv (innerEpochEnd env s).bestAggMetric (innerEpochEnd env s).trace := by
  unfold innerEpochEnd
  split
  · exact h
  · split
    · exact h
    · exact metricInv_append_neutral _ _ _ (by simp [valMetrics, valMetricOf])
        (by simp [isBestSave]) h

theorem innerEpoch_metricInv (env : Env) (s : TrainState) (i : Nat)
    (h : MetricInv s.bestAggMetric s.trace) :
    MetricInv (innerEpoch env s i).bestAggMetric (innerEpoch env s i).trace := by
  unfold innerEpoch
  split
  · exact h
  · exact innerEpochEnd_metricInv env _
      (innerEpochEval_metricInv env _ _ (innerEpochStart_metricInv env s i h))

theorem foldl_innerEpoch_metricInv (env : Env) :
    ∀ (l : List Nat) (s : TrainState),
      MetricInv s.bestAggMetric s.trace →
      MetricInv ((l.foldl (innerEpoch env) s).bestAggMetric)
        ((l.foldl (innerEpoch env) s).trace)
  | [], _, h => h
  | i :: l, s, h => by
    rw [List.foldl_cons]
    exact foldl_innerEpoch_metricInv env l _ (innerEpoch_metricInv env s i h)

theorem train_metricInv (env : Env) :
    MetricInv (train env).bestAggMetric (train env).trace := by
  rw [train_eq]
  have h0 : MetricInv (0 : Int) ([] : List Event) := by
    constructor
    · simp [valMetrics]
    · simp [valMetrics, countTriggers]
  have h := foldl_innerEpoch_metricInv env (trainBodies env) ⟨0, 0, false, []⟩ h0
  split
  · exact h
  · exact metricInv_append_neutral _ _ _ (by simp [valMetrics, valMetricOf])
      (by simp [isBestSave]) h

end RunnerIter

namespace RunnerIter

/-- One validation split never decreases `best_agg_metric`, and changes it
only on the split named "val", to a strictly greater value. -/
theorem processSplit_best_mono (env : Env) (e : Nat) (s : TrainState) (sp : String) :
    s.bestAggMetric ≤ (processSplit env e s sp).bestAggMetric ∧
    ((processSplit env e s sp).bestAggMetric ≠ s.bestAggMetric →
      sp = "val" ∧ s.bestAggMetric < (processSplit env e s sp).bestAggMetric) := by
  unfold processSplit
  split
  · exact ⟨le_refl _, fun h => absurd rfl h⟩
  · split
    · exact ⟨le_refl _, fun h => absurd rfl h⟩
    · split
      · split
        · exact ⟨le_refl _, fun h => absurd rfl h⟩
        · next m hm =>
          split
          · next hc =>
            exact ⟨hc.1.le, fun _ => ⟨hc.2, hc.1⟩⟩
          · exact ⟨le_refl _, fun h => absurd rfl h⟩
      · exact ⟨le_refl _, fun h => absurd rfl h⟩

theorem foldl_processSplit_best_mono (env : Env) (e : Nat) :
    ∀ (splits : List String) (s : TrainState),
      s.bestAggMetric ≤ (splits.foldl (processSplit env e) s).bestAggMetric
  | [], _ => le_refl _
  | sp :: splits, s => by
    rw [List.foldl_cons]
    exact le_trans (processSplit_best_mono env e s sp).1
      (foldl_processSplit_best_mono env e splits (processSplit env e s sp))

theorem innerEpoch_best_mono (env : Env) (s : TrainState) (i : Nat) :
    s.bestAggMetric ≤ (innerEpoch env s i).bestAggMetric := by
  unfold innerEpoch
  split
  · exact le_refl _
  · have h1 : s.bestAggMetric = (innerEpochStart env s i).bestAggMetric := rfl
    have h2 : (innerEpochStart env s i).bestAggMetric ≤
        (innerEpochEval env (i + env.itersPerInnerEpoch)
          (innerEpochStart env s i)).bestAggMetric := by
      unfold innerEpochEval
      split
      · exact foldl_processSplit_best_mono env _ env.validSplits _
      · split
        · exact le_refl _
        · split
          · exact le_refl _
          · exact le_refl _
    have h3 : ∀ s' : TrainState, (innerEpochEnd env s').bestAggMetric = s'.bestAggMetric := by
      intro s'
      unfold innerEpochEnd
      split
      · rfl
      · split
        · rfl
        · rfl
    rw [h3]
    exact h1 ▸ h2

theorem foldl_innerEpoch_best_mono (env : Env) :
    ∀ (l : List Nat) (s : TrainState),
      s.bestAggMetric ≤ (l.foldl (innerEpoch env) s).bestAggMetric
  | [], _ => le_refl _
  | i :: l, s => by
    rw [List.foldl_cons]
    exact le_trans (innerEpoch_best_mono env s i)
      (foldl_innerEpoch_best_mono env l (innerEpoch env s i))

theorem train_best_nonneg (env : Env) : 0 ≤ (train env).bestAggMetric := by
  rw [train_eq]
  have h := foldl_innerEpoch_best_mono env (trainBodies env) ⟨0, 0, false, []⟩
  split
  · exact h
  · exact h

end RunnerIter

namespace RunnerIter

/-- In evaluate-only mode the evaluation phase appends no non-best
checkpoint write. -/
theorem innerEpochEval_evalOnly_shape (env : Env) (e : Nat) (s : TrainState)
    (he : env.evaluateOnly = true) :
    ∃ t, (innerEpochEval env e s).trace = s.trace ++ t ∧
      t.countP isNonBestSave = 0 := by
  unfold innerEpochEval
  by_cases hlen : 0 < env.validSplits.length
  · rw [if_pos hlen]
    obtain ⟨t, ht, _, _, hn⟩ := foldl_processSplit_trace_shape env e env.validSplits s
    exact ⟨t, ht, hn⟩
  · rw [if_neg hlen, if_pos he]
    exact ⟨[], by simp⟩

/-- In evaluate-only mode the barrier phase is skipped entirely. -/
theorem innerEpochEnd_evalOnly (env : Env) (s : TrainState)
    (he : env.evaluateOnly = true) : innerEpochEnd env s = s := by
  unfold innerEpochEnd
  by_cases ha : s.aborted = true
  · rw [if_pos ha]
  · rw [if_neg ha, if_pos he]

/-- An evaluate-only loop body appends exactly one loop-body start, no barrier
wait and no non-best checkpoint write. -/
theorem innerEpoch_evalOnly_counts (env : Env) (s : TrainState) (i : Nat)
    (he : env.evaluateOnly = true) (hs : s.aborted = false) :
    (innerEpoch env s i).trace.countP isBeginEvent = s.trace.countP isBeginEvent + 1 ∧
    (innerEpoch env s i).trace.countP isBarrierEvent = s.trace.countP isBarrierEvent ∧
    (innerEpoch env s i).trace.countP isNonBestSave = s.trace.countP isNonBestSave := by
  unfold innerEpoch
  rw [if_neg (by simp [hs])]
  rw [innerEpochEnd_evalOnly env _ he]
  obtain ⟨_, _, t1, ht1, hb1, hr1, hn1, _, _⟩ := innerEpochStart_spec env s i
  obtain ⟨t2, ht2, hb2, hr2⟩ :=
    innerEpochEval_shape env (i + env.itersPerInnerEpoch) (innerEpochStart env s i)
  obtain ⟨t2n, ht2n, hn2⟩ :=
    innerEpochEval_evalOnly_shape env (i + env.itersPerInnerEpoch) (innerEpochStart env s i) he
  refine ⟨?_, ?_, ?_⟩
  · rw [ht2, ht1]
    simp [List.countP_append, hb1, hb2]
  · rw [ht2, ht1]
    simp [List.countP_append, hr1, hr2]
  · rw [ht2n, ht1]
    simp [List.countP_append, hn1, hn2]

/-- With no validation splits configured, outside evaluate-only mode and on
the main process, one loop body appends exactly its five events, ending in a
non-best checkpoint write at the end iteration count and a barrier wait. -/
theorem innerEpoch_noSplits (env : Env) (s : TrainState) (i : Nat)
    (hv : env.validSplits = []) (he : env.evaluateOnly = false)
    (hm : env.isMainProcess = true) (hs : s.aborted = false) :
    innerEpoch env s i =
      { s with trace := s.trace ++
          [Event.beginInnerEpoch i, Event.trainIters i, Event.logStats "train",
           Event.saveCkpt (i + env.itersPerInnerEpoch) false, Event.barrier] } := by
  unfold innerEpoch innerEpochEnd innerEpochEval innerEpochStart
  rw [if_neg (by simp [hs])]
  simp [hv, he, hm, hs]

/-- The expected event trace of a run with no validation splits: five events
per inner epoch. -/
def noSplitTrace (k : Nat) : List Nat → List Event
  | [] => []
  | i :: l => [Event.beginInnerEpoch i, Event.trainIters i, Event.logStats "train",
               Event.saveCkpt (i + k) false, Event.barrier] ++ noSplitTrace k l

theorem foldl_innerEpoch_noSplits (env : Env)
    (hv : env.validSplits = []) (he : env.evaluateOnly = false)
    (hm : env.isMainProcess = true) :
    ∀ (l : List Nat) (s : TrainState), s.aborted = false →
      l.foldl (innerEpoch env) s =
        { s with trace := s.trace ++ noSplitTrace env.itersPerInnerEpoch l }
  | [], s, _ => by simp [noSplitTrace]
  | i :: l, s, hs => by
    have ih := foldl_innerEpoch_noSplits env hv he hm l
      { s with trace := s.trace ++
          [Event.beginInnerEpoch i, Event.trainIters i, Event.logStats "train",
           Event.saveCkpt (i + env.itersPerInnerEpoch) false, Event.barrier] } hs
    rw [List.foldl_cons, innerEpoch_noSplits env s i hv he hm hs, ih]
    simp [noSplitTrace, List.append_assoc]

theorem noSplitTrace_filter_save (k : Nat) :
    ∀ l : List Nat, (noSplitTrace k l).filter isSaveEvent =
      l.map (fun i => Event.saveCkpt (i + k) false)
  | [] => rfl
  | i :: l => by
    simp [noSplitTrace, List.filter_append, isSaveEvent, noSplitTrace_filter_save k l]

theorem noSplitTrace_countP_bestSave (k : Nat) :
    ∀ l : List Nat, (noSplitTrace k l).countP isBestSave = 0
  | [] => rfl
  | i :: l => by
    simp [noSplitTrace, List.countP_append, List.countP_cons, isBestSave,
      noSplitTrace_countP_bestSave k l]

/-- On the main process, a validation result that lacks the aggregate-metric
key makes `processSplit` abort at once, emitting the assertion failure. -/
theorem processSplit_missing_agg (env : Env) (e : Nat) (s : TrainState) (sp : String)
    (hs : s.aborted = false) (hm : env.isMainProcess = true)
    (hr : env.evalResult e sp = some ⟨none⟩) :
    processSplit env e s sp =
      { s with aborted := true,
               trace := s.trace ++ [Event.evalEpoch sp e,
                 Event.fatal "No agg_metrics found in validation log."] } := by
  simp [processSplit, hs, hm, hr]

end RunnerIter

namespace RunnerIter

/-- `Nat.digitChar` is injective on decimal digits. -/
theorem digitChar_inj_lt_ten :
    ∀ a : Fin 10, ∀ b : Fin 10, Nat.digitChar a.val = Nat.digitChar b.val → a = b := by
  decide

theorem digitChar_inj_of_lt (a b : Nat) (ha : a < 10) (hb : b < 10)
    (h : Nat.digitChar a = Nat.digitChar b) : a = b := by
  have := digitChar_inj_lt_ten ⟨a, ha⟩ ⟨b, hb⟩ h
  exact congrArg Fin.val this

theorem map_digitChar_inj :
    ∀ (l1 l2 : List Nat), (∀ x ∈ l1, x < 10) → (∀ x ∈ l2, x < 10) →
      l1.map Nat.digitChar = l2.map Nat.digitChar → l1 = l2
  | [], [], _, _, _ => rfl
  | [], _ :: _, _, _, h => by simp at h
  | _ :: _, [], _, _, h => by simp at h
  | a :: l1, b :: l2, h1, h2, h => by
    simp only [List.map_cons, List.cons.injEq] at h
    have hab : a = b :=
      digitChar_inj_of_lt a b (h1 a (by simp)) (h2 b (by simp)) h.1
    have htl : l1 = l2 :=
      map_digitChar_inj l1 l2 (fun x hx => h1 x (by simp [hx]))
        (fun x hx => h2 x (by simp [hx])) h.2
    rw [hab, htl]

/-- The decimal representation is injective. -/
theorem natDecimalRepr_injective (i j : Nat) (h : natDecimalRepr i = natDecimalRepr j) :
    i = j := by
  unfold natDecimalRepr at h
  by_cases hi : i = 0 <;> by_cases hj : j = 0
  · rw [hi, hj]
  · exfalso
    rw [if_pos hi, if_neg hj] at h
    have hd : List.map Nat.digitChar (Nat.digits 10 j).reverse = ['0'] :=
      (congrArg String.data h).symm
    rcases hrev : (Nat.digits 10 j).reverse with _ | ⟨d, t⟩
    · rw [hrev] at hd
      simp at hd
    · rw [hrev] at hd
      simp only [List.map_cons, List.cons.injEq] at hd
      have hdm : d ∈ Nat.digits 10 j := by
        rw [← List.mem_reverse, hrev]
        simp
      have hd10 : d < 10 := Nat.digits_lt_base (by norm_num) hdm
      have hd0 : d = 0 := digitChar_inj_of_lt d 0 hd10 (by norm_num) hd.1
      have ht : t = [] := by
        rcases t with _ | _
        · rfl
        · simp at hd
      have hdig : Nat.digits 10 j = [0] := by
        have : (Nat.digits 10 j).reverse = [0] := by rw [hrev, hd0, ht]
        rw [← List.reverse_reverse (Nat.digits 10 j), this]
        rfl
      have := Nat.ofDigits_digits 10 j
      rw [hdig] at this
      simp [Nat.ofDigits] at this
      exact hj this.symm
  · exfalso
    rw [if_neg hi, if_pos hj] at h
    have hd : List.map Nat.digitChar (Nat.digits 10 i).reverse = ['0'] :=
      congrArg String.data h
    rcases hrev : (Nat.digits 10 i).reverse with _ | ⟨d, t⟩
    · rw [hrev] at hd
      simp at hd
    · rw [hrev] at hd
      simp only [List.map_cons, List.cons.injEq] at hd
      have hdm : d ∈ Nat.digits 10 i := by
        rw [← List.mem_reverse, hrev]
        simp
      have hd10 : d < 10 := Nat.digits_lt_base (by norm_num) hdm
      have hd0 : d = 0 := digitChar_inj_of_lt d 0 hd10 (by norm_num) hd.1
      have ht : t = [] := by
        rcases t with _ | _
        · rfl
        · simp at hd
      have hdig : Nat.digits 10 i = [0] := by
        have : (Nat.digits 10 i).reverse = [0] := by rw [hrev, hd0, ht]
        rw [← List.reverse_reverse (Nat.digits 10 i), this]
        rfl
      have := Nat.ofDigits_digits 10 i
      rw [hdig] at this
      simp [Nat.ofDigits] at this
      exact hi this.symm
  · rw [if_neg hi, if_neg hj] at h
    have hd : List.map Nat.digitChar (Nat.digits 10 i).reverse =
        List.map Nat.digitChar (Nat.digits 10 j).reverse :=
      congrArg String.data h
    have hrev : (Nat.digits 10 i).reverse = (Nat.digits 10 j).reverse :=
      map_digitChar_inj _ _
        (fun x hx => Nat.digits_lt_base (by norm_num) (List.mem_reverse.mp hx))
        (fun x hx => Nat.digits_lt_base (by norm_num) (List.mem_reverse.mp hx)) hd
    have hdig : Nat.digits 10 i = Nat.digits 10 j := by
      rw [← List.reverse_reverse (Nat.digits 10 i), hrev, List.reverse_reverse]
    exact Nat.digits_inj_iff.mp hdig

/-- Non-best checkpoint paths determine the iteration count. -/
theorem checkpointPath_nonbest_inj (outputDir : String) (i j : Nat)
    (h : checkpointPath outputDir i false = checkpointPath outputDir j false) : i = j := by
  apply natDecimalRepr_injective
  unfold checkpointPath checkpointFileName checkpointLabel at h
  simp only [if_neg Bool.false_ne_true] at h
  have hd := congrArg String.data h
  simp only [String.data_append] at hd
  have h1 := List.append_cancel_left hd
  have h2 := List.append_cancel_right h1
  have h3 := List.append_cancel_left h2
  exact String.ext h3

end RunnerIter

namespace RunnerIter

/-! ### Claim C1 -/

/-- A run with one inner epoch whose only validation split "val" reports the
aggregate metric -1. -/
def envNegMetric : Env :=
  ⟨2, 2, false, ["val"], true, fun _ _ => some ⟨some (-1)⟩⟩

/-- C1 counterexample: in `envNegMetric` the single observed "val" metric is
-1, which strictly exceeds every previously observed "val" metric (there are
none), yet no best checkpoint is saved, because `best_agg_metric` starts at 0. -/
theorem best_save_negative_metric_cex :
    valMetrics (train envNegMetric).trace = [-1] ∧
    (train envNegMetric).trace.countP isBestSave = 0 := by
  constructor
  · decide
  · decide

/-- C1 (amended): a best checkpoint is written exactly when a "val" aggregate
metric strictly exceeds the maximum of 0 (the initial `best_agg_metric`) and
all previously observed "val" metrics.  Globally, `best_agg_metric` equals
that running maximum and the number of best-checkpoint writes equals the
number of triggering observations; per observation, the write happens if and
only if the split is "val" and the metric strictly exceeds the current best. -/
theorem best_save_iff_exceeds_running_max :
    (∀ env : Env,
      (train env).bestAggMetric = List.foldl max 0 (valMetrics (train env).trace) ∧
      (train env).trace.countP isBestSave = countTriggers 0 (valMetrics (train env).trace)) ∧
    (∀ (env : Env) (e : Nat) (s : TrainState) (sp : String) (m : Int),
      env.isMainProcess = true → s.aborted = false →
      env.evalResult e sp = some ⟨some m⟩ →
      (((processSplit env e s sp).trace.countP isBestSave =
          s.trace.countP isBestSave + 1) ↔ (sp = "val" ∧ s.bestAggMetric < m)) ∧
      (¬(sp = "val" ∧ s.bestAggMetric < m) →
        (processSplit env e s sp).trace.countP isBestSave =
          s.trace.countP isBestSave)) := by
  constructor
  · intro env
    exact train_metricInv env
  · intro env e s sp m hm hs hr
    have hred : processSplit env e s sp =
        (if s.bestAggMetric < m ∧ sp = "val" then
          { s with
            bestAggMetric := m
            bestIters := e
            trace := s.trace ++ [Event.evalEpoch sp e, Event.aggRead sp m,
              Event.saveCkpt e true, Event.logStats sp] }
         else { s with trace := s.trace ++ [Event.evalEpoch sp e, Event.aggRead sp m,
              Event.logStats sp] }) := by
      simp [processSplit, hs, hm, hr]
    by_cases hc : s.bestAggMetric < m ∧ sp = "val"
    · rw [hred, if_pos hc]
      constructor
      · exact iff_of_true
          (by simp [List.countP_append, List.countP_cons, isBestSave]) ⟨hc.2, hc.1⟩
      · intro hn
        exact absurd ⟨hc.2, hc.1⟩ hn
    · rw [hred, if_neg hc]
      constructor
      · constructor
        · intro habs
          simp [List.countP_append, List.countP_cons, isBestSave] at habs
        · intro hyes
          exact absurd ⟨hyes.2, hyes.1⟩ hc
      · intro _
        simp [List.countP_append, List.countP_cons, isBestSave]
    

/-- A run whose "val" metric is 5, exercising the triggering case. -/
def envPosMetric : Env :=
  ⟨1, 1, false, ["val"], true, fun _ _ => some ⟨some 5⟩⟩

/-- Witness for C1 at a concrete input. -/
theorem best_save_iff_exceeds_running_max_witness :
    (((processSplit envPosMetric 1 ⟨0, 0, false, []⟩ "val").trace.countP isBestSave =
        (⟨0, 0, false, []⟩ : TrainState).trace.countP isBestSave + 1) ↔
      ("val" = "val" ∧ (⟨0, 0, false, []⟩ : TrainState).bestAggMetric < 5)) ∧
    (¬("val" = "val" ∧ (⟨0, 0, false, []⟩ : TrainState).bestAggMetric < 5) →
      (processSplit envPosMetric 1 ⟨0, 0, false, []⟩ "val").trace.countP isBestSave =
        (⟨0, 0, false, []⟩ : TrainState).trace.countP isBestSave) :=
  best_save_iff_exceeds_running_max.2 envPosMetric 1 ⟨0, 0, false, []⟩ "val" 5 rfl rfl rfl

/-! ### Claim C2 -/

/-- A run with `max_iters = 10` and `iters_per_inner_epoch = 3`. -/
def envTenThree : Env :=
  ⟨10, 3, false, [], true, fun _ _ => none⟩

/-- C2 counterexample: with `max_iters = 10`, `iters_per_inner_epoch = 3`, the
loop executes 4 inner-epoch cycles (Python `range(0, 10, 3)` has 4 elements),
not `floor(10 / 3) = 3` as claimed. -/
theorem inner_epoch_count_floor_cex :
    (train envTenThree).trace.countP isBeginEvent = 4 ∧
    envTenThree.maxIters / envTenThree.itersPerInnerEpoch = 3 ∧
    (train envTenThree).trace.countP isBeginEvent ≠
      envTenThree.maxIters / envTenThree.itersPerInnerEpoch := by
  refine ⟨?_, ?_, ?_⟩
  · decide
  · decide
  · decide

/-- C2 (amended): in a non-evaluate-only run that completes without a fatal
validation error, the number of executed inner-epoch cycles is
`⌈max_iters / iters_per_inner_epoch⌉` (the number of elements of
`range(0, max_iters, iters_per_inner_epoch)`), which is the claimed floor only
when `iters_per_inner_epoch` divides `max_iters`. -/
theorem inner_epoch_count_eq_ceil (env : Env)
    (h1 : 0 < env.maxIters) (h2 : 0 < env.itersPerInnerEpoch)
    (he : env.evaluateOnly = false) (hab : (train env).aborted = false) :
    (train env).trace.countP isBeginEvent =
      (env.maxIters + env.itersPerInnerEpoch - 1) / env.itersPerInnerEpoch := by
  rw [train_countP env isBeginEvent rfl]
  rw [train_aborted] at hab
  obtain ⟨hb, _⟩ := foldl_innerEpoch_counts env he (trainBodies env) ⟨0, 0, false, []⟩ hab
  unfold trainLoopState at *
  rw [hb]
  simp [trainBodies, he, startItersList_length]

/-- Witness for C2 at a concrete input. -/
theorem inner_epoch_count_eq_ceil_witness :
    (train envTenThree).trace.countP isBeginEvent =
      (envTenThree.maxIters + envTenThree.itersPerInnerEpoch - 1) /
        envTenThree.itersPerInnerEpoch :=
  inner_epoch_count_eq_ceil envTenThree (by decide) (by decide) rfl (by decide)

/-! ### Claim C3 -/

/-- An evaluate-only run whose "val" metric is 1. -/
def envEvalOnly : Env :=
  ⟨1, 1, true, ["val"], true, fun _ _ => some ⟨some 1⟩⟩

/-- C3 counterexample: in evaluate-only mode with a "val" split reporting
metric 1, `save_checkpoint` IS called — a best checkpoint is written — contrary
to the claim that no checkpoint is ever written in evaluate-only mode. -/
theorem evaluate_only_best_ckpt_cex :
    envEvalOnly.evaluateOnly = true ∧
    (train envEvalOnly).trace.countP isBestSave = 1 := by
  constructor
  · rfl
  · decide

/-- C3 (amended): in evaluate-only mode the loop performs at most one pass,
never waits on the barrier, and writes no NON-best checkpoint; a best
checkpoint can still be written when validation on "val" beats the best. -/
theorem evaluate_only_loop_behavior (env : Env) (he : env.evaluateOnly = true) :
    (train env).trace.countP isBeginEvent ≤ 1 ∧
    (train env).trace.countP isBarrierEvent = 0 ∧
    (train env).trace.countP isNonBestSave = 0 := by
  rw [train_countP env isBeginEvent rfl, train_countP env isBarrierEvent rfl,
    train_countP env isNonBestSave rfl]
  unfold trainLoopState trainBodies
  rw [if_pos he]
  rcases hl : startItersList env with _ | ⟨a, l⟩
  · exact ⟨Nat.zero_le 1, rfl, rfl⟩
  · have htake : List.take 1 (a :: l) = [a] := rfl
    rw [htake]
    simp only [List.foldl_cons, List.foldl_nil]
    obtain ⟨hb, hr, hn⟩ := innerEpoch_evalOnly_counts env ⟨0, 0, false, []⟩ a he rfl
    rw [hb, hr, hn]
    simp

/-- Witness for C3 at a concrete input. -/
theorem evaluate_only_loop_behavior_witness :
    (train envEvalOnly).trace.countP isBeginEvent ≤ 1 ∧
    (train envEvalOnly).trace.countP isBarrierEvent = 0 ∧
    (train envEvalOnly).trace.countP isNonBestSave = 0 :=
  evaluate_only_loop_behavior envEvalOnly rfl

end RunnerIter

namespace RunnerIter

/-! ### Claim C4 -/

/-- A non-main process whose only validation result lacks `"agg_metrics"`. -/
def envNonMain : Env :=
  ⟨1, 1, false, ["val"], false, fun _ _ => some ⟨none⟩⟩

/-- C4 counterexample: on a NON-main process, a validation result lacking
`"agg_metrics"` does not raise — the assert sits inside `if is_main_process()`
— and the run completes its loop body and testing phase normally. -/
theorem missing_agg_non_main_cex :
    envNonMain.isMainProcess = false ∧
    envNonMain.evalResult 1 "val" = some ⟨none⟩ ∧
    (train envNonMain).aborted = false ∧
    (train envNonMain).trace.countP isBeginEvent = 1 := by
  refine ⟨rfl, rfl, ?_, ?_⟩
  · decide
  · decide

/-- C4 (amended): on the MAIN process, a validation result lacking
`"agg_metrics"` aborts the run at once — the failed assertion is recorded and
nothing further in that split, and no later split or loop body, executes. -/
theorem missing_agg_main_process_aborts :
    (∀ (env : Env) (e : Nat) (s : TrainState) (sp : String),
      s.aborted = false → env.isMainProcess = true →
      env.evalResult e sp = some ⟨none⟩ →
      processSplit env e s sp =
        { s with aborted := true,
                 trace := s.trace ++ [Event.evalEpoch sp e,
                   Event.fatal "No agg_metrics found in validation log."] }) ∧
    (∀ (env : Env) (e : Nat) (s : TrainState) (sp : String),
      s.aborted = true → processSplit env e s sp = s) ∧
    (∀ (env : Env) (s : TrainState) (i : Nat),
      s.aborted = true → innerEpoch env s i = s) ∧
    (∀ (env : Env) (l : List Nat) (s : TrainState),
      s.aborted = true → l.foldl (innerEpoch env) s = s) :=
  ⟨fun env e s sp hs hm hr => processSplit_missing_agg env e s sp hs hm hr,
   fun env e s sp h => processSplit_of_aborted env e s sp h,
   fun env s i h => innerEpoch_of_aborted env s i h,
   fun env l s h => foldl_innerEpoch_of_aborted env l s h⟩

/-- A main process whose only validation result lacks `"agg_metrics"`. -/
def envMissingAgg : Env :=
  ⟨1, 1, false, ["val"], true, fun _ _ => some ⟨none⟩⟩

/-- Witness for C4 at a concrete input. -/
theorem missing_agg_main_process_aborts_witness :
    processSplit envMissingAgg 1 ⟨0, 0, false, []⟩ "val" =
      { (⟨0, 0, false, []⟩ : TrainState) with
        aborted := true,
        trace := ([] : List Event) ++ [Event.evalEpoch "val" 1,
          Event.fatal "No agg_metrics found in validation log."] } :=
  missing_agg_main_process_aborts.1 envMissingAgg 1 ⟨0, 0, false, []⟩ "val" rfl rfl rfl

/-! ### Claim C5 -/

/-- A run with exactly one inner epoch and no validation splits. -/
def envOneEpoch : Env :=
  ⟨2, 2, false, [], true, fun _ _ => none⟩

/-- C5 counterexample: one executed inner epoch comes with one barrier wait,
not the claimed `n - 1 = 0`: `dist.barrier()` also runs after the final
inner epoch. -/
theorem barrier_after_final_epoch_cex :
    (train envOneEpoch).trace.countP isBeginEvent = 1 ∧
    (train envOneEpoch).trace.countP isBarrierEvent = 1 ∧
    (train envOneEpoch).trace.countP isBarrierEvent ≠
      (train envOneEpoch).trace.countP isBeginEvent - 1 := by
  refine ⟨?_, ?_, ?_⟩
  · decide
  · decide
  · decide

/-- C5 (amended): in a non-evaluate-only run that completes without a fatal
validation error, a barrier wait follows EVERY executed inner epoch, the final
one included: n inner epochs come with n barrier waits, not n - 1. -/
theorem barrier_after_every_inner_epoch (env : Env) (he : env.evaluateOnly = false)
    (hab : (train env).aborted = false) :
    (train env).trace.countP isBarrierEvent = (train env).trace.countP isBeginEvent := by
  rw [train_countP env isBarrierEvent rfl, train_countP env isBeginEvent rfl]
  rw [train_aborted] at hab
  obtain ⟨hb, hr⟩ := foldl_innerEpoch_counts env he (trainBodies env) ⟨0, 0, false, []⟩ hab
  unfold trainLoopState at *
  rw [hb, hr]
  rfl

/-- Witness for C5 at a concrete input. -/
theorem barrier_after_every_inner_epoch_witness :
    (train envOneEpoch).trace.countP isBarrierEvent =
      (train envOneEpoch).trace.countP isBeginEvent :=
  barrier_after_every_inner_epoch envOneEpoch rfl (by decide)

/-! ### Claim C6 -/

/-- C6: `best_agg_metric` is monotonically non-decreasing throughout a run:
each validation split leaves it unchanged or — only on split "val" — replaces
it with a strictly greater value; folding any loop suffix never decreases it;
and it never goes below its initial value 0. -/
theorem best_agg_metric_monotone :
    (∀ (env : Env) (e : Nat) (s : TrainState) (sp : String),
      s.bestAggMetric ≤ (processSplit env e s sp).bestAggMetric ∧
      ((processSplit env e s sp).bestAggMetric ≠ s.bestAggMetric →
        sp = "val" ∧ s.bestAggMetric < (processSplit env e s sp).bestAggMetric)) ∧
    (∀ (env : Env) (l : List Nat) (s : TrainState),
      s.bestAggMetric ≤ (l.foldl (innerEpoch env) s).bestAggMetric) ∧
    (∀ env : Env, 0 ≤ (train env).bestAggMetric) :=
  ⟨fun env e s sp => processSplit_best_mono env e s sp,
   fun env l s => foldl_innerEpoch_best_mono env l s,
   fun env => train_best_nonneg env⟩

/-- Witness for C6 at a concrete input: the update on split "val" is strict. -/
theorem best_agg_metric_monotone_witness :
    "val" = "val" ∧
    (⟨0, 0, false, []⟩ : TrainState).bestAggMetric <
      (processSplit envPosMetric 1 ⟨0, 0, false, []⟩ "val").bestAggMetric :=
  (best_agg_metric_monotone.1 envPosMetric 1 ⟨0, 0, false, []⟩ "val").2 (by decide)

end RunnerIter

namespace RunnerIter

/-! ### Claim C7 -/

/-- C7: construction aborts on an assertion when the configured `max_iters`
(default -1 when absent) or `iters_per_inner_epoch` (default -1) is
non-positive; no runner — and hence no training step — results. -/
theorem init_rejects_nonpositive (cfg : RunCfg)
    (h : cfg.max_iters.getD (-1) ≤ 0 ∨ cfg.iters_per_inner_epoch.getD (-1) ≤ 0) :
    runnerIterInit cfg = Except.error "max_iters must be greater than 0." ∨
    runnerIterInit cfg = Except.error "iters_per_inner_epoch must be greater than 0." := by
  unfold runnerIterInit
  by_cases h1 : 0 < cfg.max_iters.getD (-1)
  · rw [if_pos h1]
    have h2 : cfg.iters_per_inner_epoch.getD (-1) ≤ 0 := by
      rcases h with h | h
      · omega
      · exact h
    rw [if_neg (by omega)]
    exact Or.inr rfl
  · rw [if_neg h1]
    exact Or.inl rfl

/-- Witness for C7 at a concrete input: both keys absent, so both default
to -1. -/
theorem init_rejects_nonpositive_witness :
    runnerIterInit ⟨none, none⟩ = Except.error "max_iters must be greater than 0." ∨
    runnerIterInit ⟨none, none⟩ =
      Except.error "iters_per_inner_epoch must be greater than 0." :=
  init_rejects_nonpositive ⟨none, none⟩ (by decide)

/-! ### Claim C8 -/

/-- C8: with no validation splits, outside evaluate-only mode (writes observed
on the main process), the checkpoint writes of a run are exactly one non-best
write per executed inner epoch, labeled with that epoch's end iteration count,
and no best checkpoint is ever written. -/
theorem no_valid_splits_ckpt_per_epoch (env : Env)
    (hv : env.validSplits = []) (he : env.evaluateOnly = false)
    (hm : env.isMainProcess = true) :
    (train env).trace.filter isSaveEvent =
      (startItersList env).map
        (fun i => Event.saveCkpt (i + env.itersPerInnerEpoch) false) ∧
    (train env).trace.countP isBestSave = 0 := by
  have hfold := foldl_innerEpoch_noSplits env hv he hm (startItersList env)
    ⟨0, 0, false, []⟩ rfl
  have hbodies : trainBodies env = startItersList env := by
    unfold trainBodies
    rw [if_neg (by simp [he])]
  have htrain : train env =
      { bestAggMetric := 0, bestIters := 0, aborted := false,
        trace := ([] : List Event) ++
          noSplitTrace env.itersPerInnerEpoch (startItersList env) ++
          [Event.finalEvaluate] } := by
    rw [train_eq]
    unfold trainLoopState
    rw [hbodies, hfold]
    rfl
  rw [htrain]
  constructor
  · simp only [List.nil_append, List.filter_append]
    rw [noSplitTrace_filter_save]
    simp [isSaveEvent]
  · simp only [List.nil_append, List.countP_append]
    rw [noSplitTrace_countP_bestSave]
    simp [List.countP_cons, isBestSave]

/-- A four-iteration, two-per-epoch run with no validation splits. -/
def envNoSplits : Env :=
  ⟨4, 2, false, [], true, fun _ _ => none⟩

/-- Witness for C8 at a concrete input. -/
theorem no_valid_splits_ckpt_per_epoch_witness :
    (train envNoSplits).trace.filter isSaveEvent =
      (startItersList envNoSplits).map
        (fun i => Event.saveCkpt (i + envNoSplits.itersPerInnerEpoch) false) ∧
    (train envNoSplits).trace.countP isBestSave = 0 :=
  no_valid_splits_ckpt_per_epoch envNoSplits rfl rfl rfl

/-! ### Claim C9 -/

/-- C9: the body of `save_checkpoint` writes to
`output_dir/checkpoint_<label>.pth` — label "best" when `is_best` else the
decimal iteration count — an object holding exactly the model state, the
optimizer state, the configuration and the iteration count; all best saves
target one fixed path while non-best paths determine the iteration count. -/
theorem save_checkpoint_path_and_contents :
    (∀ (M O C : Type) (outputDir : String) (model : M) (optimizer : O) (config : C)
        (curIters : Nat) (isBest : Bool),
      save_checkpoint outputDir model optimizer config curIters isBest =
        (outputDir ++ "/" ++
          ("checkpoint_" ++ (if isBest then "best" else natDecimalRepr curIters) ++ ".pth"),
         SaveObj.mk model optimizer config curIters)) ∧
    (∀ (outputDir : String) (i j : Nat),
      checkpointPath outputDir i true = checkpointPath outputDir j true) ∧
    (∀ (outputDir : String) (i j : Nat),
      checkpointPath outputDir i false = checkpointPath outputDir j false → i = j) :=
  ⟨fun _ _ _ _ _ _ _ _ _ => rfl,
   fun _ _ _ => rfl,
   fun outputDir i j h => checkpointPath_nonbest_inj outputDir i j h⟩

/-- Witness for C9 at a concrete input. -/
theorem save_checkpoint_path_and_contents_witness :
    (save_checkpoint "out" (1 : Nat) (2 : Nat) (3 : Nat) 5 false =
      ("out" ++ "/" ++
        ("checkpoint_" ++ (if false then "best" else natDecimalRepr 5) ++ ".pth"),
       SaveObj.mk 1 2 3 5)) ∧
    (7 : Nat) = 7 :=
  ⟨save_checkpoint_path_and_contents.1 Nat Nat Nat "out" 1 2 3 5 false,
   save_checkpoint_path_and_contents.2.2 "out" 7 7 rfl⟩

/-! ### Claim C10 -/

/-- C10: a validation split whose `eval_epoch` returns `None` is skipped
silently: only the evaluation call is recorded; no error is raised, the best
metric and best iteration stay unchanged, no checkpoint write and no
statistics logging happen for that split, and the state remains un-aborted so
the loop proceeds. -/
theorem eval_none_skips_split (env : Env) (e : Nat) (s : TrainState) (sp : String)
    (hs : s.aborted = false) (hr : env.evalResult e sp = none) :
    processSplit env e s sp = { s with trace := s.trace ++ [Event.evalEpoch sp e] } := by
  simp [processSplit, hs, hr]

/-- A run whose `eval_epoch` always returns `None`. -/
def envNoneEval : Env :=
  ⟨1, 1, false, ["val"], true, fun _ _ => none⟩

/-- Witness for C10 at a concrete input. -/
theorem eval_none_skips_split_witness :
    processSplit envNoneEval 1 ⟨0, 0, false, []⟩ "val" =
      { (⟨0, 0, false, []⟩ : TrainState) with
        trace := ([] : List Event) ++ [Event.evalEpoch "val" 1] } :=
  eval_none_skips_split envNoneEval 1 ⟨0, 0, false, []⟩ "val" rfl rfl

end RunnerIter
